import Mathlib

/-!
Shallow embedding of the Sentinel Research Agent core
(`src/sra/graph.py`, `src/sra/tools.py`, `src/sra/cli.py`):
hit deduplication and citation-id assignment, evidence formatting,
the search/analyzer loop of the LangGraph workflow, the search tool's
retry/backoff policy, and the CLI's initial state.
-/

set_option maxRecDepth 4000

namespace SRA

/-- `SearchHit` from `state.py`: normalized search result stored in agent
state; `source_id` is absent (`none`) until `search_node` assigns it. -/
structure SearchHit where
  title : String
  snippet : String
  url : String
  source_id : Option String := none
deriving DecidableEq, Repr

/-- Python `str.lower()`, modelled characterwise on the string's character
sequence (the repository's keys are ASCII, where this agrees with Python). -/
def pyLower (s : String) : String :=
  String.mk (s.data.map Char.toLower)

/-- The dedup key of a hit: `(hit.get("url") or hit.get("title", "")).lower()`
from `_dedupe_hits` in `graph.py` (Python `or` falls back to the title when
the url is the empty string). -/
def hitKey (h : SearchHit) : String :=
  pyLower (if h.url = "" then h.title else h.url)

/-- The reversed-order walk of `_dedupe_hits`: iterate the hits most recent
first, keeping a hit only when its key is nonempty and not seen yet. -/
def dedupeRev : List SearchHit → List String → List SearchHit
  | [], _ => []
  | h :: rest, seen =>
    let k := hitKey h
    if k ≠ "" ∧ k ∉ seen then h :: dedupeRev rest (k :: seen)
    else dedupeRev rest seen

/-- `_dedupe_hits` from `graph.py`: keep the most recent hit per URL/title
key, restoring ascending (chronological) order at the end. -/
def _dedupe_hits (hits : List SearchHit) : List SearchHit :=
  (dedupeRev hits.reverse []).reverse

/-- `_MAX_CONTEXT_HITS` from `graph.py`. -/
def _MAX_CONTEXT_HITS : Nat := 12

/-- `_MAX_SNIPPET_LEN` from `graph.py`. -/
def _MAX_SNIPPET_LEN : Nat := 500

/-- The snippet transformation inside `_format_hits`:
`if len(snippet) > 500: snippet = snippet[:497] + "..."`.
Python slicing is modelled on the character sequence of the string. -/
def truncSnippet (s : String) : String :=
  if s.length > _MAX_SNIPPET_LEN then
    String.mk (s.data.take (_MAX_SNIPPET_LEN - 3)) ++ "..."
  else s

/-- One formatted evidence line of `_format_hits`:
`f"{prefix} {hit['title']} ({hit['url']}): {snippet}"`, where the prefix is
`f"[{source_id}]"` when `source_id` is truthy and `"-"` otherwise. -/
def formatHit (h : SearchHit) : String :=
  let pref :=
    match h.source_id with
    | some sid => if sid ≠ "" then "[" ++ sid ++ "]" else "-"
    | none => "-"
  pref ++ " " ++ h.title ++ " (" ++ h.url ++ "): " ++ truncSnippet h.snippet

/-- The list of hits `_format_hits` actually renders:
`_dedupe_hits(hits)[:_MAX_CONTEXT_HITS]`. -/
def contextHits (hits : List SearchHit) : List SearchHit :=
  (_dedupe_hits hits).take _MAX_CONTEXT_HITS

/-- `_format_hits` from `graph.py`: empty string on no hits, otherwise the
deduplicated list capped to 12, one line per hit. -/
def _format_hits (hits : List SearchHit) : String :=
  if hits = [] then ""
  else String.intercalate "\n" ((contextHits hits).map formatHit)

/-- The id-assignment loop of `search_node`:
`for idx, hit in enumerate(hits, start=1): hit["source_id"] = f"S{base + idx}"`,
with `base + idx` threaded through the recursion. -/
def assignFrom (n : Nat) : List SearchHit → List SearchHit
  | [] => []
  | h :: rest => { h with source_id := some ("S" ++ toString (n + 1)) } :: assignFrom (n + 1) rest

/-- Citation-id assignment of `search_node` over one batch of tool hits:
`base = len(_dedupe_hits(state.get("search_results", [])))`, then every hit
of the batch gets `S{base + idx}`. -/
def assignIds (prior : List SearchHit) (newHits : List SearchHit) : List SearchHit :=
  assignFrom (_dedupe_hits prior).length newHits

/-- The cumulative `search_results` after one more search iteration: the
LangGraph reducer `operator.add` appends the batch returned by
`search_node` to the existing sequence. -/
def accStep (acc : List SearchHit) (batch : List SearchHit) : List SearchHit :=
  acc ++ assignIds acc batch

/-- The cumulative `search_results` after a whole run, given the raw hit
batches the search tool returned on each iteration. -/
def accumulate (batches : List (List SearchHit)) : List SearchHit :=
  List.foldl accStep [] batches

/-! ### Search Provider (`tools.py`, `GoogleSearchTool.run`) -/

/-- One raw item of the provider's JSON response: each of `title`,
`snippet`, `link` may be absent. -/
structure RawItem where
  title : Option String := none
  snippet : Option String := none
  link : Option String := none
deriving DecidableEq, Repr

/-- Normalization of a raw item inside the success branch of `run`:
`title` defaults to "Unknown Title", `snippet` and `link` to "". -/
def normalizeItem (it : RawItem) : SearchHit :=
  { title := it.title.getD "Unknown Title"
    snippet := it.snippet.getD ""
    url := it.link.getD ""
    source_id := none }

/-- The observable outcome of one HTTP attempt inside `run`: success with
the response's item list, an HTTP status error (`httpx.HTTPStatusError`),
a transport-level error (any other `httpx.HTTPError`), or an unexpected
exception (the defensive `except Exception` branch). -/
inductive AttemptOutcome where
  | success (items : List RawItem)
  | statusError (status : Nat) (body : String)
  | transportError (msg : String)
  | otherError (msg : String)
deriving DecidableEq, Repr

/-- The error string `run` records for a failed attempt (`none` for a
successful attempt): `f"HTTP {status}: {exc.response.text[:200]}"`,
`f"HTTP error: {exc}"`, or `f"Unexpected error: {exc}"`. -/
def attemptErrorMsg : AttemptOutcome → Option String
  | .success _ => none
  | .statusError status body =>
    some ("HTTP " ++ toString status ++ ": " ++ String.mk (body.data.take 200))
  | .transportError msg => some ("HTTP error: " ++ msg)
  | .otherError msg => some ("Unexpected error: " ++ msg)

/-- The transient statuses of `run`: `status in {429, 500, 502, 503, 504}`. -/
def transientStatus (status : Nat) : Bool :=
  status = 429 ∨ status = 500 ∨ status = 502 ∨ status = 503 ∨ status = 504

/-- The result of `GoogleSearchTool.run` together with its observable
retry trace: the returned `(hits, error)` pair, how many attempts were
made, and the `time.sleep` durations (time-units, exact rationals). -/
structure SearchRunResult where
  hits : List SearchHit
  error : Option String
  attemptsUsed : Nat
  sleeps : List ℚ
deriving DecidableEq, Repr

/-- The retry loop of `run` (`for attempt in range(1, attempts + 1)`),
with `remaining` the number of attempts still allowed including the
current one; `remaining = attempts + 1 - attempt`, so Python's
`attempt < attempts` is `remaining > 1`. On retry it sleeps `backoff`
and doubles it; on `break` or loop exhaustion it returns
`([], last_error)`. -/
def runGo (outcomes : Nat → AttemptOutcome) (attempt : Nat) (backoff : ℚ)
    (sleeps : List ℚ) : Nat → SearchRunResult
  | 0 => { hits := [], error := none, attemptsUsed := attempt - 1, sleeps := sleeps }
  | remaining + 1 =>
    match outcomes attempt with
    | .success items =>
      { hits := items.map normalizeItem, error := none, attemptsUsed := attempt
        sleeps := sleeps }
    | .statusError status body =>
      if transientStatus status ∧ remaining > 0 then
        runGo outcomes (attempt + 1) (backoff * 2) (sleeps ++ [backoff]) remaining
      else
        { hits := [], error := attemptErrorMsg (.statusError status body)
          attemptsUsed := attempt, sleeps := sleeps }
    | .transportError msg =>
      if remaining > 0 then
        runGo outcomes (attempt + 1) (backoff * 2) (sleeps ++ [backoff]) remaining
      else
        { hits := [], error := attemptErrorMsg (.transportError msg)
          attemptsUsed := attempt, sleeps := sleeps }
    | .otherError msg =>
      { hits := [], error := attemptErrorMsg (.otherError msg)
        attemptsUsed := attempt, sleeps := sleeps }

/-- `GoogleSearchTool.run`: `attempts = 3`, `backoff = 0.5`,
`last_error = None`, then the retry loop. `outcomes n` is what the n-th
HTTP attempt would observe (attempts are numbered from 1). -/
def GoogleSearchTool_run (outcomes : Nat → AttemptOutcome) : SearchRunResult :=
  runGo outcomes 1 (1 / 2 : ℚ) [] 3

/-! ### `search_node`, `analyzer_node` and the loop (`graph.py`, `cli.py`) -/

/-- Python truthiness of an optional string (`if error:`). -/
def strOptTruthy : Option String → Bool
  | some s => s ≠ ""
  | none => false

/-- The state delta returned by `search_node`: the hit batch appended to
`search_results` by the `operator.add` reducer, the `ToolMessage` content
lines, the recorded `search_error`, and the incremented `iterations`. -/
structure SearchNodeUpdate where
  newHits : List SearchHit
  contentLines : List String
  search_error : Option String
  iterations : Nat
deriving Repr

/-- `search_node` from `graph.py`, given the cumulative prior
`search_results`, the prior `iterations`, and the `(hits, error)` pair the
search tool returned for this iteration. -/
def search_node (prior : List SearchHit) (iterations : Nat)
    (toolHits : List SearchHit) (toolError : Option String) : SearchNodeUpdate :=
  let hits := assignIds prior toolHits
  let header := "[Search Results]" ++ (if strOptTruthy toolError then " (error)" else "")
  let errLines := if strOptTruthy toolError then ["Error: " ++ toolError.getD ""] else []
  let hitLines := if hits ≠ [] then [_format_hits hits] else ["No results."]
  { newHits := hits
    contentLines := header :: (errLines ++ hitLines)
    search_error := toolError
    iterations := iterations + 1 }

/-- The unconditional edge `workflow.add_edge("search_tool", "analyzer")`:
after the search node, control always proceeds to the analyzer. -/
def edgeAfterSearch : String := "analyzer"

/-- The two values of `AnalyzerDecision.status` / `AgentState.status`. -/
inductive Status where
  | CONTINUE
  | FINISH
deriving DecidableEq, Repr

/-- The force-finish condition of `analyzer_node`:
`iterations >= max_iters > 0 and decision.status == "CONTINUE"` (a Python
chained comparison). `max_iters` is an integer that may be ≤ 0. -/
def forceFinish (iterations : Nat) (maxIters : Int) (decisionStatus : Status) : Prop :=
  (iterations : Int) ≥ maxIters ∧ maxIters > 0 ∧ decisionStatus = .CONTINUE

instance (i : Nat) (m : Int) (s : Status) : Decidable (forceFinish i m s) := by
  unfold forceFinish; infer_instance

/-- The status `analyzer_node` writes back:
`"FINISH" if force_finish else decision.status`. -/
def analyzerStatusOut (decisionStatus : Status) (iterations : Nat) (maxIters : Int) : Status :=
  if forceFinish iterations maxIters decisionStatus then .FINISH else decisionStatus

/-- One search→analyzer round of the compiled workflow, iterated until the
analyzer's status is FINISH (the conditional edge
`{"CONTINUE": "search_tool", "FINISH": "reporter"}`) or the step budget
(`fuel`, the graph's recursion limit) runs out. `oracle i` is the
`AnalyzerDecision.status` the Decision Maker returns after the i-th search;
the result is the value of `iterations` when the run leaves the loop for
the reporter, or `none` when the recursion limit cuts the run off. -/
def runLoop (oracle : Nat → Status) (maxIters : Int) (iterations : Nat) : Nat → Option Nat
  | 0 => none
  | fuel + 1 =>
    match analyzerStatusOut (oracle (iterations + 1)) (iterations + 1) maxIters with
    | .FINISH => some (iterations + 1)
    | .CONTINUE => runLoop oracle maxIters (iterations + 1) fuel

/-- The fields of the `initial_state` dict built by `cli.py`'s `run`
command, with `none` for every `AgentState` key the dict literal does not
mention (`max_iters`, `iterations`, `num_results`, `freshness`,
`search_error`). -/
structure CliInitialState where
  research_query : String
  search_results : List SearchHit
  status : Status
  final_report : Option Unit
  max_iters : Option Int
  iterations : Option Nat
  num_results : Option Nat
  freshness : Option (Option String)
  search_error : Option (Option String)
deriving Repr

/-- `initial_state` from `cli.py`: only `messages`, `research_query`,
`search_results`, `status` and `final_report` are present. -/
def cliInitialState : CliInitialState :=
  { research_query := ""
    search_results := []
    status := .CONTINUE
    final_report := none
    max_iters := none
    iterations := none
    num_results := none
    freshness := none
    search_error := none }

/-- The `recursion_limit` the CLI passes to the workflow:
`max_iters * 2` with `max_iters` the CLI option (default 4, minimum 1). -/
def cliRecursionLimit (maxItersOption : Nat) : Nat :=
  maxItersOption * 2

/-- What `analyzer_node` reads as the budget:
`state.get("max_iters", 0)`. -/
def budgetRead (maxItersField : Option Int) : Int :=
  maxItersField.getD 0

/-- The conditions under which `run` retries an attempt: an HTTP status
error with a classified-transient status, or any other `httpx.HTTPError`
(transport-level failure). Successes and unexpected exceptions are never
retried. -/
def retriable : AttemptOutcome → Bool
  | .statusError status _ => transientStatus status
  | .transportError _ => true
  | .success _ => false
  | .otherError _ => false

/-- The backoff schedule of `run`: 0.5 time-units before attempt 2,
1.0 time-units before attempt 3. -/
def backoffSchedule : List ℚ := [1 / 2, 1]

/-- `k` sleeps starting at backoff `b`, doubling after each retry. -/
def doublings (b : ℚ) : Nat → List ℚ
  | 0 => []
  | k + 1 => b :: doublings (b * 2) k

/-! ### Concrete fixtures used by the claims -/

/-- The first hit of the spec's worked example: `{url:"a.com", title:"A1"}`. -/
def hitA1 : SearchHit := ⟨"A1", "", "a.com", none⟩

/-- The second hit of the spec's worked example: `{url:"a.com", title:"A2"}`,
same dedup key as `hitA1`. -/
def hitA2 : SearchHit := ⟨"A2", "", "a.com", none⟩

/-- A hit with a fresh key `b.com`, first seen on a third search. -/
def hitB : SearchHit := ⟨"B", "", "b.com", none⟩

/-- The i-th of a family of hits with pairwise distinct URL keys. -/
def exHit (i : Nat) : SearchHit :=
  ⟨"T" ++ toString i, "", "u" ++ toString i ++ ".com", none⟩

/-- Thirteen hits with pairwise distinct keys, in chronological order. -/
def ex13 : List SearchHit := (List.range 13).map (fun i => exHit (i + 1))

/-! ### Lemmas about `_dedupe_hits` -/

/-- Every hit kept by the reversed dedup walk has a nonempty key outside
`seen`, and the kept keys are pairwise distinct. -/
theorem dedupeRev_sound : ∀ (xs : List SearchHit) (seen : List String),
    (∀ h ∈ dedupeRev xs seen, hitKey h ≠ "" ∧ hitKey h ∉ seen)
      ∧ ((dedupeRev xs seen).map hitKey).Nodup := by
  intro xs
  induction xs with
  | nil => intro seen; simp [dedupeRev]
  | cons h rest ih =>
    intro seen
    by_cases hc : hitKey h ≠ "" ∧ hitKey h ∉ seen
    · simp only [dedupeRev, if_pos hc]
      obtain ⟨ihmem, ihnd⟩ := ih (hitKey h :: seen)
      refine ⟨?_, ?_⟩
      · intro h' hh'
        rcases List.mem_cons.mp hh' with rfl | hh'
        · exact hc
        · obtain ⟨hne, hnotin⟩ := ihmem h' hh'
          exact ⟨hne, fun hin => hnotin (List.mem_cons_of_mem _ hin)⟩
      · rw [List.map_cons, List.nodup_cons]
        refine ⟨?_, ihnd⟩
        intro hin
        obtain ⟨h', hh', hkey⟩ := List.mem_map.mp hin
        exact (ihmem h' hh').2 (hkey ▸ List.mem_cons_self _ _)
    · simp only [dedupeRev, if_neg hc]
      exact ih seen

/-- The reversed dedup walk is the identity on a list whose keys are
nonempty, pairwise distinct and disjoint from `seen`. -/
theorem dedupeRev_fixed : ∀ (ys : List SearchHit) (seen : List String),
    (∀ h ∈ ys, hitKey h ≠ "" ∧ hitKey h ∉ seen) → ((ys.map hitKey).Nodup) →
    dedupeRev ys seen = ys := by
  intro ys
  induction ys with
  | nil => intro seen _ _; rfl
  | cons h rest ih =>
    intro seen hmem hnd
    have hc : hitKey h ≠ "" ∧ hitKey h ∉ seen := hmem h (List.mem_cons_self _ _)
    rw [List.map_cons, List.nodup_cons] at hnd
    simp only [dedupeRev, if_pos hc]
    congr 1
    refine ih (hitKey h :: seen) ?_ hnd.2
    intro h' hh'
    obtain ⟨hne, hnotin⟩ := hmem h' (List.mem_cons_of_mem _ hh')
    refine ⟨hne, ?_⟩
    intro hin
    rcases List.mem_cons.mp hin with heq | hin'
    · exact hnd.1 (List.mem_map.mpr ⟨h', hh', heq⟩)
    · exact hnotin hin'

/-- `_dedupe_hits` is idempotent. -/
theorem dedupe_hits_idem (hits : List SearchHit) :
    _dedupe_hits (_dedupe_hits hits) = _dedupe_hits hits := by
  unfold _dedupe_hits
  rw [List.reverse_reverse]
  obtain ⟨hmem, hnd⟩ := dedupeRev_sound hits.reverse []
  rw [dedupeRev_fixed (dedupeRev hits.reverse []) [] hmem hnd]

/-! ### Lemmas about the retry loop `runGo` -/

/-- The retry loop makes at most `attempt - 1 + fuel` total attempts. -/
theorem runGo_attempts_le (outcomes : Nat → AttemptOutcome) :
    ∀ (fuel attempt : Nat) (b : ℚ) (s : List ℚ),
      (runGo outcomes attempt b s fuel).attemptsUsed ≤ attempt - 1 + fuel := by
  intro fuel
  induction fuel with
  | zero => intro attempt b s; simp [runGo]
  | succ fuel ih =>
    intro attempt b s
    rw [runGo]
    split
    · simp; omega
    · split_ifs
      · exact le_trans (ih (attempt + 1) _ _) (by omega)
      · simp; omega
    · split_ifs
      · exact le_trans (ih (attempt + 1) _ _) (by omega)
      · simp; omega
    · simp; omega

/-- With at least one attempt allowed, the loop uses at least the current
attempt number. -/
theorem runGo_attempts_ge (outcomes : Nat → AttemptOutcome) :
    ∀ (fuel attempt : Nat) (b : ℚ) (s : List ℚ), 1 ≤ fuel →
      attempt ≤ (runGo outcomes attempt b s fuel).attemptsUsed := by
  intro fuel
  induction fuel with
  | zero => intro _ _ _ h; omega
  | succ fuel ih =>
    intro attempt b s _
    rw [runGo]
    split
    · simp
    · split_ifs with hc
      · exact le_trans (by omega) (ih (attempt + 1) _ _ (by omega))
      · simp
    · split_ifs with hc
      · exact le_trans (by omega) (ih (attempt + 1) _ _ (by omega))
      · simp
    · simp

/-- An attempt `k` is followed by a further attempt only when its outcome
is classified retriable. -/
theorem runGo_retry_only (outcomes : Nat → AttemptOutcome) :
    ∀ (fuel attempt : Nat) (b : ℚ) (s : List ℚ) (k : Nat), attempt ≤ k →
      k < (runGo outcomes attempt b s fuel).attemptsUsed → retriable (outcomes k) := by
  intro fuel
  induction fuel with
  | zero =>
    intro attempt b s k hk hlt
    rw [runGo] at hlt
    simp at hlt
    omega
  | succ fuel ih =>
    intro attempt b s k hk hlt
    rw [runGo] at hlt
    split at hlt
    · simp at hlt; omega
    · next status body hout =>
      split_ifs at hlt with hc
      · rcases Nat.eq_or_lt_of_le hk with rfl | hk'
        · rw [hout]
          simpa [retriable] using hc.1
        · exact ih (attempt + 1) _ _ k hk' hlt
      · simp at hlt; omega
    · next msg hout =>
      split_ifs at hlt with hc
      · rcases Nat.eq_or_lt_of_le hk with rfl | hk'
        · rw [hout]; simp [retriable]
        · exact ih (attempt + 1) _ _ k hk' hlt
      · simp at hlt; omega
    · simp at hlt; omega

/-- The sleeps the loop performs are the accumulated prefix plus one
doubling backoff per retry actually taken. -/
theorem runGo_sleeps (outcomes : Nat → AttemptOutcome) :
    ∀ (fuel attempt : Nat) (b : ℚ) (s : List ℚ), 1 ≤ fuel →
      (runGo outcomes attempt b s fuel).sleeps
        = s ++ doublings b ((runGo outcomes attempt b s fuel).attemptsUsed - attempt) := by
  intro fuel
  induction fuel with
  | zero => intro _ _ _ h; omega
  | succ fuel ih =>
    intro attempt b s _
    rw [runGo]
    split
    · simp [doublings]
    · split_ifs with hc
      · have hge := runGo_attempts_ge outcomes fuel (attempt + 1) (b * 2) (s ++ [b]) (by omega)
        rw [ih (attempt + 1) (b * 2) (s ++ [b]) (by omega)]
        have hsub : (runGo outcomes (attempt + 1) (b * 2) (s ++ [b]) fuel).attemptsUsed - attempt
            = ((runGo outcomes (attempt + 1) (b * 2) (s ++ [b]) fuel).attemptsUsed
                - (attempt + 1)) + 1 := by omega
        rw [hsub, doublings]
        simp
      · simp [doublings]
    · split_ifs with hc
      · have hge := runGo_attempts_ge outcomes fuel (attempt + 1) (b * 2) (s ++ [b]) (by omega)
        rw [ih (attempt + 1) (b * 2) (s ++ [b]) (by omega)]
        have hsub : (runGo outcomes (attempt + 1) (b * 2) (s ++ [b]) fuel).attemptsUsed - attempt
            = ((runGo outcomes (attempt + 1) (b * 2) (s ++ [b]) fuel).attemptsUsed
                - (attempt + 1)) + 1 := by omega
        rw [hsub, doublings]
        simp
      · simp [doublings]
    · simp [doublings]

/-- The retry loop either ends on a successful attempt, returning its
normalized items with no error, or ends on a failed attempt, returning no
hits and that last attempt's error message. -/
theorem runGo_result (outcomes : Nat → AttemptOutcome) :
    ∀ (fuel attempt : Nat) (b : ℚ) (s : List ℚ), 1 ≤ fuel →
      (∃ items, outcomes (runGo outcomes attempt b s fuel).attemptsUsed = .success items
        ∧ (runGo outcomes attempt b s fuel).hits = items.map normalizeItem
        ∧ (runGo outcomes attempt b s fuel).error = none)
      ∨ ((runGo outcomes attempt b s fuel).hits = []
        ∧ ∃ e, (runGo outcomes attempt b s fuel).error = some e
          ∧ attemptErrorMsg (outcomes (runGo outcomes attempt b s fuel).attemptsUsed)
              = some e) := by
  intro fuel
  induction fuel with
  | zero => intro _ _ _ h; omega
  | succ fuel ih =>
    intro attempt b s _
    rw [runGo]
    split
    · next items hout => exact Or.inl ⟨items, by simpa using hout, rfl, rfl⟩
    · next status body hout =>
      split_ifs with hc
      · exact ih (attempt + 1) _ _ (by omega)
      · refine Or.inr ⟨rfl, ?_⟩
        exact ⟨_, rfl, by simpa using congrArg attemptErrorMsg hout⟩
    · next msg hout =>
      split_ifs with hc
      · exact ih (attempt + 1) _ _ (by omega)
      · refine Or.inr ⟨rfl, ?_⟩
        exact ⟨_, rfl, by simpa using congrArg attemptErrorMsg hout⟩
    · next msg hout =>
      refine Or.inr ⟨rfl, ?_⟩
      exact ⟨_, rfl, by simpa using congrArg attemptErrorMsg hout⟩

/-- Every error string the search tool can record is nonempty. -/
theorem attemptErrorMsg_ne_empty (o : AttemptOutcome) (e : String)
    (h : attemptErrorMsg o = some e) : e ≠ "" := by
  cases o with
  | success items => simp [attemptErrorMsg] at h
  | statusError status body =>
    simp only [attemptErrorMsg, Option.some.injEq] at h
    subst h
    intro hemp
    have hlen := congrArg String.length hemp
    simp only [String.length_append] at hlen
    simp only [show "HTTP ".length = 5 from rfl, show ": ".length = 2 from rfl,
      show ("" : String).length = 0 from rfl] at hlen
    omega
  | transportError msg =>
    simp only [attemptErrorMsg, Option.some.injEq] at h
    subst h
    intro hemp
    have hlen := congrArg String.length hemp
    simp only [String.length_append] at hlen
    simp only [show "HTTP error: ".length = 12 from rfl,
      show ("" : String).length = 0 from rfl] at hlen
    omega
  | otherError msg =>
    simp only [attemptErrorMsg, Option.some.injEq] at h
    subst h
    intro hemp
    have hlen := congrArg String.length hemp
    simp only [String.length_append] at hlen
    simp only [show "Unexpected error: ".length = 18 from rfl,
      show ("" : String).length = 0 from rfl] at hlen
    omega

end SRA

namespace SRA

/-! ### Claim theorems -/

/-- C9: the deduplicator is idempotent (`_dedupe_hits` applied twice is
`_dedupe_hits` applied once), and the dedup/citation-assignment step of
`search_node` applied to an empty batch of new hits assigns no citation
ids and leaves the cumulative hit sequence exactly unchanged. -/
theorem dedupe_idempotent :
    (∀ hits : List SearchHit, _dedupe_hits (_dedupe_hits hits) = _dedupe_hits hits)
      ∧ (∀ prior : List SearchHit, assignIds prior [] = [] ∧ accStep prior [] = prior) :=
  ⟨dedupe_hits_idem, fun prior => ⟨rfl, by simp [accStep, assignIds, assignFrom]⟩⟩

/-- C1 counterexample: for the spec's own example (two successive searches
returning `{url:"a.com", title:"A1"}` then `{url:"a.com", title:"A2"}`,
the same dedup key), the code assigns the first hit `S1` and the second hit
the fresh id `S2`: a second citation id is assigned to a key that already
had one, so the later hit does not map to the id assigned at the key's
first occurrence. The evidence view does show title `"A2"` — but paired
with `S2`, not `S1`. -/
theorem repeated_key_gets_new_citation_id :
    hitKey hitA1 = hitKey hitA2
      ∧ (accumulate [[hitA1], [hitA2]]).map (fun h => h.source_id)
          = [some "S1", some "S2"]
      ∧ (_dedupe_hits (accumulate [[hitA1], [hitA2]])).map (fun h => (h.title, h.source_id))
          = [("A2", some "S2")]
      ∧ (some "S1" : Option String) ≠ some "S2" := by decide

/-- C1 amended: each individual hit receives a citation id exactly once, at
the moment its batch is appended, and later iterations never change ids
already in the sequence; but a later hit whose key was already seen gets a
fresh id `S(base+position)` (base = number of deduplicated prior hits),
not the id of the key's first occurrence. In the spec's example the first
hit keeps `S1`, the later same-key hit is assigned `S2`, and the evidence
view shows title `"A2"` with `S2`. -/
theorem citation_ids_assigned_once_per_hit :
    (∀ (batches : List (List SearchHit)) (batch : List SearchHit),
        accumulate (batches ++ [batch])
          = accumulate batches ++ assignIds (accumulate batches) batch)
      ∧ (∀ (prior batch : List SearchHit),
          (assignIds prior batch).map (fun h => h.source_id)
            = (List.range batch.length).map
                (fun i => some ("S" ++ toString ((_dedupe_hits prior).length + i + 1))))
      ∧ (accumulate [[hitA1], [hitA2]]).map (fun h => h.source_id) = [some "S1", some "S2"]
      ∧ (_dedupe_hits (accumulate [[hitA1], [hitA2]])).map (fun h => (h.title, h.source_id))
          = [("A2", some "S2")] := by
  refine ⟨?_, ?_, by decide, by decide⟩
  · intro batches batch
    rw [accumulate, List.foldl_append]
    rfl
  · intro prior batch
    rw [assignIds]
    generalize (_dedupe_hits prior).length = n
    induction batch generalizing n with
    | nil => simp [assignFrom]
    | cons h rest ih =>
      simp only [assignFrom, List.map_cons, List.length_cons, List.range_succ_eq_map,
        List.map_map, List.cons.injEq]
      constructor
      · simp
      · rw [ih (n + 1)]
        apply List.map_congr_left
        intro i _
        simp only [Function.comp_apply]
        congr 3
        omega

/-- Assigning citation ids keeps the batch length. -/
theorem assignFrom_length : ∀ (l : List SearchHit) (n : Nat),
    (assignFrom n l).length = l.length := by
  intro l
  induction l with
  | nil => intro n; rfl
  | cons h rest ih => intro n; simp [assignFrom, ih (n + 1)]

/-- The cumulative hit sequence keeps every hit of every batch: its length
is the sum of the batch lengths, whatever the dedup/cap logic renders. -/
theorem accumulate_length : ∀ (batches : List (List SearchHit)),
    (accumulate batches).length = (batches.map List.length).sum := by
  have general : ∀ (batches : List (List SearchHit)) (acc : List SearchHit),
      (List.foldl accStep acc batches).length
        = acc.length + (batches.map List.length).sum := by
    intro batches
    induction batches with
    | nil => intro acc; simp
    | cons b rest ih =>
      intro acc
      simp only [List.foldl_cons, List.map_cons, List.sum_cons, ih]
      simp [accStep, assignIds, assignFrom_length]
      omega

  intro batches
  simpa using general batches []

/-- C3 counterexample: with thirteen hits of pairwise distinct keys, the
rendered evidence list is the *earliest* twelve deduplicated hits — the
first hit is retained and the thirteenth (most recent) hit is the one
dropped, contradicting the claim that the twelve retained are the most
recent ones in most-recent-first order. -/
theorem format_cap_keeps_earliest_hits :
    (_dedupe_hits ex13).length = 13
      ∧ contextHits ex13 = (List.range 12).map (fun i => exHit (i + 1))
      ∧ exHit 1 ∈ contextHits ex13
      ∧ exHit 13 ∈ _dedupe_hits ex13
      ∧ exHit 13 ∉ contextHits ex13 := by decide

/-- C3 amended: the evidence view formatted for the Decision Maker renders
at most 12 deduplicated hits, and when more than 12 distinct keys exist the
12 retained are the *earliest-seen* keys, in ascending chronological order
(each represented by its most recent hit) — not the most recent ones. The
cap is presentation-only: the authoritative cumulative hit sequence keeps
every hit of every batch. -/
theorem format_cap_presentation_only :
    (∀ hits : List SearchHit, (contextHits hits).length ≤ 12)
      ∧ (∀ hits : List SearchHit, (contextHits hits).IsPrefix (_dedupe_hits hits))
      ∧ (∀ batches : List (List SearchHit),
          (accumulate batches).length = (batches.map List.length).sum)
      ∧ contextHits ex13 = (List.range 12).map (fun i => exHit (i + 1)) := by
  refine ⟨?_, ?_, accumulate_length, by decide⟩
  · intro hits
    exact List.length_take_le _ _
  · intro hits
    exact List.take_prefix _ _

/-- C2 (bug witness): over the three searches
`[{url:"a.com"}], [{url:"a.com"}], [{url:"b.com"}]` the code assigns the
ids `S1, S2, S2`: the key `a.com` receives two distinct ids, and `S2` is
then also reused for the distinct key `b.com`, so citation ids are neither
pairwise distinct within the run nor reserved for first-seen keys. -/
theorem citation_ids_collide :
    (accumulate [[hitA1], [hitA2], [hitB]]).map (fun h => h.source_id)
        = [some "S1", some "S2", some "S2"]
      ∧ hitKey hitA2 ≠ hitKey hitB := by decide

/-- If the analyzer emits CONTINUE and the budget is positive, the
iteration count is still strictly under the budget (otherwise the
force-finish override would have fired). -/
theorem analyzerStatusOut_continue {d : Status} {it : Nat} {mi : Int}
    (h : analyzerStatusOut d it mi = .CONTINUE) (hmi : 0 < mi) : (it : Int) < mi := by
  unfold analyzerStatusOut at h
  split at h
  · exact Status.noConfusion h
  · next hnf =>
    subst h
    simp only [forceFinish, and_true] at hnf
    omega

/-- Budget safety of the search/analyzer loop: with a positive budget, a
run that leaves the loop for the reporter does so with an iteration count
at most the budget. -/
theorem runLoop_le (oracle : Nat → Status) (mi : Int) (hmi : 0 < mi) :
    ∀ (fuel iters n : Nat), (iters : Int) < mi →
      runLoop oracle mi iters fuel = some n → (n : Int) ≤ mi := by
  intro fuel
  induction fuel with
  | zero => intro iters n _ h; exact absurd h (by simp [runLoop])
  | succ fuel ih =>
    intro iters n hlt h
    rw [runLoop] at h
    cases hst : analyzerStatusOut (oracle (iters + 1)) (iters + 1) mi with
    | FINISH =>
      rw [hst] at h
      obtain rfl : iters + 1 = n := Option.some.inj h
      omega
    | CONTINUE =>
      rw [hst] at h
      exact ih (iters + 1) n (analyzerStatusOut_continue hst hmi) h

/-- With a zero budget the loop can only leave for the reporter on an
oracle FINISH decision, never by force-finish. -/
theorem runLoop_zero_budget_finish (oracle : Nat → Status) :
    ∀ (fuel iters n : Nat), runLoop oracle 0 iters fuel = some n →
      oracle n = .FINISH := by
  intro fuel
  induction fuel with
  | zero => intro iters n h; exact absurd h (by simp [runLoop])
  | succ fuel ih =>
    intro iters n h
    rw [runLoop] at h
    have hred : analyzerStatusOut (oracle (iters + 1)) (iters + 1) 0 = oracle (iters + 1) := by
      unfold analyzerStatusOut
      rw [if_neg]
      rintro ⟨_, hpos, _⟩
      omega
    rw [hred] at h
    cases ho : oracle (iters + 1) with
    | FINISH =>
      rw [ho] at h
      obtain rfl : iters + 1 = n := Option.some.inj h
      exact ho
    | CONTINUE =>
      rw [ho] at h
      exact ih (iters + 1) n h

/-- C6: the Search Provider makes at most 3 total attempts; an attempt is
followed by another only when it failed with a classified-transient
condition (HTTP 429/500/502/503/504 or a transport-level error); a
non-transient HTTP status on the first attempt ends the call at once; and
the sleeps actually performed are the prefix of the schedule
[0.5, 1.0] corresponding to the retries taken (0.5 before attempt 2,
1.0 before attempt 3). -/
theorem search_retry_policy (outcomes : Nat → AttemptOutcome) :
    (GoogleSearchTool_run outcomes).attemptsUsed ≤ 3
      ∧ (∀ k, 1 ≤ k → k < (GoogleSearchTool_run outcomes).attemptsUsed →
          retriable (outcomes k))
      ∧ (∀ status body, outcomes 1 = .statusError status body →
          transientStatus status = false →
          (GoogleSearchTool_run outcomes).attemptsUsed = 1)
      ∧ (GoogleSearchTool_run outcomes).sleeps
          = backoffSchedule.take ((GoogleSearchTool_run outcomes).attemptsUsed - 1) := by
  refine ⟨?_, fun k hk hlt => runGo_retry_only outcomes 3 1 (1 / 2) [] k hk hlt, ?_, ?_⟩
  · show (runGo outcomes 1 (1 / 2) [] 3).attemptsUsed ≤ 3
    have h := runGo_attempts_le outcomes 3 1 (1 / 2) []
    omega
  · intro status body hout htr
    show (runGo outcomes 1 (1 / 2) [] 3).attemptsUsed = 1
    rw [runGo, hout]
    simp [htr]
  · unfold GoogleSearchTool_run
    have hle := runGo_attempts_le outcomes 3 1 (1 / 2) []
    have hge := runGo_attempts_ge outcomes 3 1 (1 / 2) [] (by omega)
    have hsl := runGo_sleeps outcomes 3 1 (1 / 2) [] (by omega)
    rw [hsl, List.nil_append]
    have h123 : (runGo outcomes 1 (1 / 2) [] 3).attemptsUsed = 1
        ∨ (runGo outcomes 1 (1 / 2) [] 3).attemptsUsed = 2
        ∨ (runGo outcomes 1 (1 / 2) [] 3).attemptsUsed = 3 := by omega
    rcases h123 with h | h | h <;> rw [h] <;> norm_num [doublings, backoffSchedule]

/-- C6 witness: a 503 outcome is classified retriable (witnessing the
retry conjunct at the all-503 run, which makes 3 attempts), and a 404 on
the first attempt ends the call after exactly one attempt. -/
theorem search_retry_policy_witness :
    retriable (.statusError 503 "down") = true
      ∧ (GoogleSearchTool_run (fun _ => .statusError 404 "nope")).attemptsUsed = 1 :=
  ⟨(search_retry_policy (fun _ => .statusError 503 "down")).2.1 1 (by decide) (by decide),
    (search_retry_policy (fun _ => .statusError 404 "nope")).2.2.1 404 "nope" rfl
      (by decide)⟩

/-- C7: the Search Provider's `run` is total (modelled as a total function:
every exception path is caught and folded into the result) and never
propagates a fault: it either ends on a successful attempt and returns the
normalized hit list with no error, or ends with every attempt failed and
returns the empty hit list paired with the last observed error, a
descriptive (nonempty) string. -/
theorem search_run_never_raises (outcomes : Nat → AttemptOutcome) :
    ((GoogleSearchTool_run outcomes).error = none
      ∧ ∃ items, outcomes (GoogleSearchTool_run outcomes).attemptsUsed
            = .success items
          ∧ (GoogleSearchTool_run outcomes).hits = items.map normalizeItem)
      ∨ ((GoogleSearchTool_run outcomes).hits = []
        ∧ ∃ e, (GoogleSearchTool_run outcomes).error = some e
          ∧ attemptErrorMsg (outcomes (GoogleSearchTool_run outcomes).attemptsUsed)
              = some e
          ∧ e ≠ "") := by
  rcases runGo_result outcomes 3 1 (1 / 2) [] (by omega) with
    ⟨items, h1, h2, h3⟩ | ⟨h1, e, h2, h3⟩
  · exact Or.inl ⟨h3, items, h1, h2⟩
  · exact Or.inr ⟨h1, e, h2, h3, attemptErrorMsg_ne_empty _ e h3⟩

/-- C4: the iteration budget is enforced. Whenever the analyzer sees
`iterations >= max_iters` with a positive budget and the Decision Maker
says CONTINUE, the status is overridden to FINISH; with `max_iters <= 0`
the force-finish rule never changes the decision; any run leaving the loop
with a positive budget has made at most `max_iters` search iterations; and
with `max_iters = 2` and an always-CONTINUE Decision Maker the loop exits
to the reporter after exactly 2 search iterations. -/
theorem iteration_budget_enforced :
    (∀ (iterations : Nat) (mi : Int), (iterations : Int) ≥ mi → 0 < mi →
        analyzerStatusOut .CONTINUE iterations mi = .FINISH)
      ∧ (∀ (st : Status) (iterations : Nat) (mi : Int), mi ≤ 0 →
          analyzerStatusOut st iterations mi = st)
      ∧ (∀ (oracle : Nat → Status) (mi : Int) (fuel n : Nat), 0 < mi →
          runLoop oracle mi 0 fuel = some n → (n : Int) ≤ mi)
      ∧ runLoop (fun _ => .CONTINUE) 2 0 10 = some 2 := by
  refine ⟨?_, ?_, ?_, by decide⟩
  · intro it mi h1 h2
    unfold analyzerStatusOut
    rw [if_pos ⟨h1, h2, rfl⟩]
  · intro st it mi hle
    unfold analyzerStatusOut
    rw [if_neg]
    rintro ⟨_, h2, _⟩
    omega
  · intro oracle mi fuel n hmi h
    exact runLoop_le oracle mi hmi fuel 0 n (by omega) h

/-- C4 witness: at `iterations = 2`, `max_iters = 2` the override fires,
and the always-CONTINUE run with budget 2 (which exits at iteration 2)
satisfies the budget bound. -/
theorem iteration_budget_enforced_witness :
    analyzerStatusOut .CONTINUE 2 2 = .FINISH ∧ ((2 : Nat) : Int) ≤ 2 :=
  ⟨iteration_budget_enforced.1 2 2 (by decide) (by decide),
    iteration_budget_enforced.2.2.1 (fun _ => .CONTINUE) 2 10 2 (by decide) (by decide)⟩

/-- C5: a search-stage failure does not abort the run. When the search
tool's call ends in an error, the tool returned no hits, so the batch
`search_node` appends is empty and the cumulative hit sequence is
unchanged; the error is recorded in `search_error` and surfaced as an
explicit `Error:` note in the tool message; `iterations` is still
incremented; and the unconditional graph edge after the search node leads
to the analyzer. -/
theorem search_failure_not_fatal (outcomes : Nat → AttemptOutcome) (e : String)
    (herr : (GoogleSearchTool_run outcomes).error = some e) :
    (GoogleSearchTool_run outcomes).hits = []
      ∧ ∀ (prior : List SearchHit) (iterations : Nat),
          (search_node prior iterations (GoogleSearchTool_run outcomes).hits
              (GoogleSearchTool_run outcomes).error).newHits = []
            ∧ prior ++ (search_node prior iterations (GoogleSearchTool_run outcomes).hits
                (GoogleSearchTool_run outcomes).error).newHits = prior
            ∧ (search_node prior iterations (GoogleSearchTool_run outcomes).hits
                (GoogleSearchTool_run outcomes).error).search_error = some e
            ∧ ("Error: " ++ e) ∈ (search_node prior iterations
                (GoogleSearchTool_run outcomes).hits
                (GoogleSearchTool_run outcomes).error).contentLines
            ∧ (search_node prior iterations (GoogleSearchTool_run outcomes).hits
                (GoogleSearchTool_run outcomes).error).iterations = iterations + 1
            ∧ edgeAfterSearch = "analyzer" := by
  have herr' : (runGo outcomes 1 (1 / 2) [] 3).error = some e := herr
  have hfail : (GoogleSearchTool_run outcomes).hits = [] ∧ e ≠ "" := by
    rcases runGo_result outcomes 3 1 (1 / 2) [] (by omega) with
      ⟨items, _, _, h3⟩ | ⟨h1, e', h2, h3⟩
    · rw [h3] at herr'
      exact Option.noConfusion herr'
    · rw [h2] at herr'
      have heq : e' = e := Option.some.inj herr'
      exact ⟨h1, attemptErrorMsg_ne_empty _ e (heq ▸ h3)⟩
  obtain ⟨hhits, hne⟩ := hfail
  refine ⟨hhits, ?_⟩
  intro prior iterations
  rw [hhits, herr]
  have htr : strOptTruthy (some e) = true := by simp [strOptTruthy, hne]
  refine ⟨?_, ?_, rfl, ?_, rfl, rfl⟩
  · simp [search_node, assignIds, assignFrom]
  · simp [search_node, assignIds, assignFrom]
  · simp [search_node, htr, assignIds, assignFrom]

/-- C5 witness: with every attempt failing with HTTP 503, the tool
returns no hits, and the search node still increments the iteration
count. -/
theorem search_failure_not_fatal_witness :
    (GoogleSearchTool_run (fun _ => .statusError 503 "down")).hits = []
      ∧ (search_node [] 0 (GoogleSearchTool_run (fun _ => .statusError 503 "down")).hits
          (GoogleSearchTool_run (fun _ => .statusError 503 "down")).error).iterations
        = 0 + 1 :=
  have h := search_failure_not_fatal (fun _ => .statusError 503 "down")
    "HTTP 503: down" (by decide)
  ⟨h.1, (h.2 [] 0).2.2.2.2.1⟩

/-- C8: every snippet rendered in the formatted evidence view fits in 500
characters: a snippet of length at most 500 is rendered unchanged, and a
longer one is rendered as its first 497 characters followed by the
ellipsis marker "...", for a total of exactly 500 characters. -/
theorem snippet_truncated_to_500 (s : String) :
    (s.length ≤ 500 → truncSnippet s = s)
      ∧ (500 < s.length →
          truncSnippet s = String.mk (s.data.take 497) ++ "..."
            ∧ (truncSnippet s).length = 500) := by
  have hdata : s.data.length = s.length := rfl
  constructor
  · intro hle
    simp only [truncSnippet, _MAX_SNIPPET_LEN]
    rw [if_neg (by omega)]
  · intro hgt
    have heq : truncSnippet s = String.mk (s.data.take 497) ++ "..." := by
      simp only [truncSnippet, _MAX_SNIPPET_LEN]
      rw [if_pos (by omega)]
    refine ⟨heq, ?_⟩
    rw [heq, String.length_append, String.length_mk, List.length_take]
    have hdots : ("..." : String).length = 3 := rfl
    omega

/-- C8 witness: a short snippet is rendered unchanged, and a 501-character
snippet is rendered at exactly 500 characters. -/
theorem snippet_truncated_to_500_witness :
    truncSnippet "short" = "short"
      ∧ (truncSnippet (String.mk (List.replicate 501 'a'))).length = 500 :=
  ⟨(snippet_truncated_to_500 "short").1 (by decide),
    ((snippet_truncated_to_500 (String.mk (List.replicate 501 'a'))).2 (by decide)).2⟩

/-- C10: the CLI's `initial_state` has no `max_iters` key, so the analyzer
reads the budget as its default 0 and the force-finish rule never fires on
any iteration of a CLI run; such a loop leaves for the reporter only on a
Decision Maker FINISH, and otherwise the run is cut off when the step
budget — the graph's recursion limit, set by the CLI to `max_iters * 2` —
is exhausted. -/
theorem cli_run_unbounded :
    cliInitialState.max_iters = none
      ∧ budgetRead cliInitialState.max_iters = 0
      ∧ (∀ (st : Status) (iterations : Nat),
          analyzerStatusOut st iterations (budgetRead cliInitialState.max_iters) = st)
      ∧ (∀ (oracle : Nat → Status) (iterations fuel n : Nat),
          runLoop oracle (budgetRead cliInitialState.max_iters) iterations fuel = some n →
            oracle n = .FINISH)
      ∧ (∀ (oracle : Nat → Status) (iterations : Nat),
          runLoop oracle (budgetRead cliInitialState.max_iters) iterations 0 = none)
      ∧ (∀ m : Nat, cliRecursionLimit m = m * 2) := by
  refine ⟨rfl, rfl, ?_, ?_, fun _ _ => rfl, fun _ => rfl⟩
  · intro st it
    show analyzerStatusOut st it 0 = st
    unfold analyzerStatusOut
    rw [if_neg]
    rintro ⟨_, hpos, _⟩
    omega
  · intro oracle iterations fuel n h
    exact runLoop_zero_budget_finish oracle fuel iterations n h

/-- C10 witness: with the CLI's zero budget, a run whose Decision Maker
first says FINISH at iteration 2 leaves the loop there, and the theorem
yields that the exit was indeed a FINISH decision. -/
theorem cli_run_unbounded_witness :
    (fun i => if i = 2 then Status.FINISH else Status.CONTINUE) 2 = Status.FINISH :=
  cli_run_unbounded.2.2.2.1 (fun i => if i = 2 then .FINISH else .CONTINUE) 0 4 2
    (by decide)

end SRA

